import Mathlib

/-!
# topologyinfo: CPU topology snapshot and NUMA distance matrix

A shallow embedding of `cpus/cpus.go` (`NewCPUs`, `GetNodeIDForCPU`) and of the
NUMA distance matrix exercised by `numa/distances/distances_test.go`, together
with the properties stated about them.

Conventions of the embedding:

* Go `int` values are `Int`.  `NewCPUs` performs no arithmetic on them; the
  only place where the 64-bit width matters is the range check of
  `strconv.Atoi`, which is modelled explicitly.
* A Go `map[int]V` is modelled by its lookup function `Int → Option V`
  (`none` = key absent); `m[k] = v` is `GoMap.set`.
* A Go result pair `(*CPUs, error)` is modelled as the pair
  `Option CPUs × Option Error` (`none` = `nil`), so that "snapshot and error
  are never both non-nil" is a statement about the code and not about a type.
* The `sysfs` package is outside the two embedded files.  Its two read
  primitives are taken as the parameter `Sysfs`: a filesystem state is the
  pair of functions answering `ReadList` and `ReadFile` for every directory
  handle and attribute name.  A read is a function of the state: reading the
  same attribute twice gives the same answer.
* The implementation of `numa/distances` is outside the two embedded files
  as well; the distance matrix is modelled from its specification, and every
  such definition says so.
-/

namespace TopologyInfo

/-! ## Errors -/

/-- The two error causes carried by a `*strconv.NumError`. -/
inductive NumErrCause where
  | ErrSyntax
  | ErrRange
  deriving DecidableEq, Repr

/-- Error values that flow through the embedded code. -/
inductive Error where
  /-- An error returned by one of the `sysfs` read primitives. -/
  | read (msg : String)
  /-- A `*strconv.NumError` with fields `Func`, `Num`, `Err`. -/
  | num (fn : String) (text : String) (cause : NumErrCause)
  /-- A distance row whose length differs from the number of online nodes. -/
  | malformedRow (node : Int) (got : Nat) (want : Nat)
  /-- A query that names a node which is not online. -/
  | unknownNode (node : Int)
  deriving DecidableEq, Repr

/-! ## `strconv.Atoi` -/

/-- Value of an ASCII decimal digit, `none` for any other character
(`ch -= '0'; if ch > 9` in Go). -/
def digitVal (c : Char) : Option Nat :=
  if 48 ≤ c.toNat ∧ c.toNat ≤ 57 then some (c.toNat - 48) else none

/-- The digit loop of `strconv.ParseUint(s, 10, 64)` started with accumulator
`n`: `none` is a syntax error, `some none` a range error (the 64-bit
accumulator overflowed), `some (some v)` the value. -/
def parseUintLoop : List Char → Nat → Option (Option Nat)
  | [], n => some (some n)
  | c :: cs, n =>
    match digitVal c with
    | none => none
    | some d =>
      if 2 ^ 64 / 10 + 1 ≤ n then some none
      else if 2 ^ 64 - 1 < n * 10 + d then some none
      else parseUintLoop cs (n * 10 + d)

/-- The function `strconv.ParseUint(s, 10, 64)` on the characters of `s`. -/
def parseUint (s : List Char) : Option (Option Nat) :=
  match s with
  | [] => none
  | _ => parseUintLoop s 0

/-- Splits an optional leading sign off: `(neg, rest)`. -/
def splitSign : List Char → Bool × List Char
  | '+' :: cs => (false, cs)
  | '-' :: cs => (true, cs)
  | cs => (false, cs)

/-- The function `strconv.Atoi` for a 64-bit `int`: an optional sign followed
by at least one decimal digit, with value in `[-2^63, 2^63 - 1]`. -/
def Atoi (s : String) : Except Error Int :=
  match s.toList with
  | [] => .error (.num "Atoi" s .ErrSyntax)
  | cs =>
    let sg := splitSign cs
    match parseUint sg.2 with
    | none => .error (.num "Atoi" s .ErrSyntax)
    | some none => .error (.num "Atoi" s .ErrRange)
    | some (some un) =>
      if sg.1 then
        (if 2 ^ 63 < un then .error (.num "Atoi" s .ErrRange) else .ok (-(un : Int)))
      else
        (if 2 ^ 63 ≤ un then .error (.num "Atoi" s .ErrRange) else .ok (un : Int))

/-! ## The `sysfs` read primitives -/

/-- A directory handle of the `sysfs` package, as built by `sysfs.New`,
`Join`, `ForCPU` and `ForNode`. -/
inductive Dir where
  | New (path : String)
  | Join (d : Dir) (sub : String)
  | ForCPU (d : Dir) (cpuID : Int)
  | ForNode (d : Dir) (node : Int)
  deriving DecidableEq, Repr

/-- Modelled from the spec: the constant `sysfs.PathDevsSysCPU`, declared in the
absent `sysfs` package; the relative sub-path of the global CPU lists. -/
def PathDevsSysCPU : String := "devices/system/cpu"

/-- Modelled from the spec: the constant `sysfs.PathDevsSysNode`, declared in
the absent `sysfs` package; the relative sub-path of the global node lists. -/
def PathDevsSysNode : String := "devices/system/node"

/-- A filesystem state, seen through the two read primitives of `sysfs`:
`ReadList` (a decoded range list) and `ReadFile` (a scalar text value). -/
structure Sysfs where
  ReadList : Dir → String → Except Error (List Int)
  ReadFile : Dir → String → Except Error String

/-! ## Go maps -/

/-- A Go `map[K]V`, by its lookup function. -/
abbrev GoMap (K : Type) (V : Type) := K → Option V

/-- The empty map: `make(map[K]V)`. -/
def GoMap.empty {K V : Type} : GoMap K V := fun _ => none

/-- The assignment `m[k] = v`. -/
def GoMap.set {K V : Type} [DecidableEq K] (m : GoMap K V) (k : K) (v : V) : GoMap K V :=
  fun j => if j = k then some v else m j

/-! ## `cpus.CPUs` -/

/-- Go type `CPUIdList`. -/
abbrev CPUIdList := List Int

/-- Go struct `CPUs`. -/
structure CPUs where
  Present : CPUIdList
  Online : CPUIdList
  CoreCPUs : GoMap Int CPUIdList
  PackageCPUs : GoMap Int CPUIdList
  Packages : CPUIdList
  NUMANodes : CPUIdList
  NUMANodeCPUs : GoMap Int CPUIdList
  cpuID2NUMANode : GoMap Int Int

/-- Method `GetNodeIDForCPU`: the comma-ok lookup `n, ok := c.cpuID2NUMANode[cpuID]`
(a missing key yields the zero value and `false`). -/
def CPUs.GetNodeIDForCPU (c : CPUs) (cpuID : Int) : Int × Bool :=
  match c.cpuID2NUMANode cpuID with
  | some n => (n, true)
  | none => (0, false)

/-- Local variables of `NewCPUs` that the loop over `online` updates. -/
structure CPULoopState where
  packageIds : CPUIdList
  packages : String → CPUIdList
  coreCPUs : GoMap Int CPUIdList
  packageCPUs : GoMap Int CPUIdList

/-- State before the first iteration of the loop over `online`
(lines 67-70). -/
def CPULoopState.init : CPULoopState :=
  { packageIds := [], packages := fun _ => [], coreCPUs := GoMap.empty,
    packageCPUs := GoMap.empty }

/-- One iteration of `for _, cpuID := range online` (lines 72-98); `.error`
is the early `return nil, err`. -/
def cpuLoopBody (fs : Sysfs) (sys : Dir) (st : CPULoopState) (cpuID : Int) :
    Except Error CPULoopState :=
  let sysCpuIDTopo := (sys.ForCPU cpuID).Join "topology"
  match fs.ReadList sysCpuIDTopo "thread_siblings_list" with
  | .error err => .error err
  | .ok cpuThreads =>
    match fs.ReadList sysCpuIDTopo "core_siblings_list" with
    | .error err => .error err
    | .ok cpuCores =>
      match fs.ReadFile sysCpuIDTopo "physical_package_id" with
      | .error err => .error err
      | .ok physPackageID =>
        match Atoi physPackageID with
        | .error err => .error err
        | .ok pkgId =>
          .ok { packageIds := st.packageIds ++ [pkgId]
                coreCPUs := st.coreCPUs.set cpuID cpuThreads
                packageCPUs := st.packageCPUs.set cpuID cpuCores
                packages := fun k =>
                  if k = physPackageID then st.packages physPackageID ++ [cpuID]
                  else st.packages k }

/-- The loop `for _, cpuID := range online` (lines 71-99). -/
def cpuLoop (fs : Sysfs) (sys : Dir) : List Int → CPULoopState → Except Error CPULoopState
  | [], st => .ok st
  | cpuID :: rest, st =>
    match cpuLoopBody fs sys st cpuID with
    | .error err => .error err
    | .ok st1 => cpuLoop fs sys rest st1

/-- Local variables of `NewCPUs` that the loop over `nodes` updates. -/
structure NodeLoopState where
  cpuID2NUMANode : GoMap Int Int
  numaNodeCPUs : GoMap Int CPUIdList

/-- State before the first iteration of the loop over `nodes`
(lines 101-102). -/
def NodeLoopState.init : NodeLoopState :=
  { cpuID2NUMANode := GoMap.empty, numaNodeCPUs := GoMap.empty }

/-- The inner loop `for _, cpu := range cpus { cpuID2NUMANode[cpu] = node }`
(lines 110-112). -/
def assignNode (node : Int) : List Int → GoMap Int Int → GoMap Int Int
  | [], m => m
  | cpu :: rest, m => assignNode node rest (m.set cpu node)

/-- One iteration of `for _, node := range nodes` (lines 104-112). -/
def nodeLoopBody (fs : Sysfs) (sys : Dir) (st : NodeLoopState) (node : Int) :
    Except Error NodeLoopState :=
  match fs.ReadList (sys.ForNode node) "cpulist" with
  | .error err => .error err
  | .ok cpus =>
    .ok { numaNodeCPUs := st.numaNodeCPUs.set node cpus
          cpuID2NUMANode := assignNode node cpus st.cpuID2NUMANode }

/-- The loop `for _, node := range nodes` (lines 103-113). -/
def nodeLoop (fs : Sysfs) (sys : Dir) : List Int → NodeLoopState → Except Error NodeLoopState
  | [], st => .ok st
  | node :: rest, st =>
    match nodeLoopBody fs sys st node with
    | .error err => .error err
    | .ok st1 => nodeLoop fs sys rest st1

/-- Function `NewCPUs` (lines 49-126), run against the filesystem state `fs`.
The result is the Go pair `(*CPUs, error)`. -/
def NewCPUs (fs : Sysfs) (sysfsPath : String) : Option CPUs × Option Error :=
  let sys := Dir.New sysfsPath
  let sysCpu := sys.Join PathDevsSysCPU
  match fs.ReadList sysCpu "present" with
  | .error err => (none, some err)
  | .ok present =>
    match fs.ReadList sysCpu "online" with
    | .error err => (none, some err)
    | .ok online =>
      match fs.ReadList (sys.Join PathDevsSysNode) "online" with
      | .error err => (none, some err)
      | .ok nodes =>
        match cpuLoop fs sys online CPULoopState.init with
        | .error err => (none, some err)
        | .ok cst =>
          match nodeLoop fs sys nodes NodeLoopState.init with
          | .error err => (none, some err)
          | .ok nst =>
            (some { Present := present
                    Online := online
                    CoreCPUs := cst.coreCPUs
                    PackageCPUs := cst.packageCPUs
                    Packages := cst.packageIds
                    NUMANodes := nodes
                    NUMANodeCPUs := nst.numaNodeCPUs
                    cpuID2NUMANode := nst.cpuID2NUMANode }, none)

/-! ## Example filesystem states -/

/-- A two-CPU, two-node tree in which CPU 0 is listed under both nodes. -/
def fsOverlap : Sysfs where
  ReadList := fun d name =>
    if d = (Dir.New "/sys").Join PathDevsSysCPU ∧ name = "present" then .ok [0, 1]
    else if d = (Dir.New "/sys").Join PathDevsSysCPU ∧ name = "online" then .ok [0, 1]
    else if d = (Dir.New "/sys").Join PathDevsSysNode ∧ name = "online" then .ok [0, 1]
    else if d = ((Dir.New "/sys").ForCPU 0).Join "topology" ∧ name = "thread_siblings_list"
      then .ok [0]
    else if d = ((Dir.New "/sys").ForCPU 0).Join "topology" ∧ name = "core_siblings_list"
      then .ok [0, 1]
    else if d = ((Dir.New "/sys").ForCPU 1).Join "topology" ∧ name = "thread_siblings_list"
      then .ok [1]
    else if d = ((Dir.New "/sys").ForCPU 1).Join "topology" ∧ name = "core_siblings_list"
      then .ok [0, 1]
    else if d = (Dir.New "/sys").ForNode 0 ∧ name = "cpulist" then .ok [0]
    else if d = (Dir.New "/sys").ForNode 1 ∧ name = "cpulist" then .ok [0, 1]
    else .error (.read "no such file")
  ReadFile := fun d name =>
    if d = ((Dir.New "/sys").ForCPU 0).Join "topology" ∧ name = "physical_package_id"
      then .ok "0"
    else if d = ((Dir.New "/sys").ForCPU 1).Join "topology" ∧ name = "physical_package_id"
      then .ok "0"
    else .error (.read "no such file")

/-! ## Program-order view of the reads of `NewCPUs` -/

/-- The error carried by the result of a step, `none` when the step succeeded. -/
def failureOf {α : Type} : Except Error α → Option Error
  | .error err => some err
  | .ok _ => none

/-- The first failure in a sequence of step outcomes. -/
def firstFailure : List (Option Error) → Option Error
  | [] => none
  | some err :: _ => some err
  | none :: rest => firstFailure rest

/-- The integer parse of the `physical_package_id` text of CPU `cpuID`, as a
step of its own: it is attempted only when the text could be read. -/
def parseStep (fs : Sysfs) (sys : Dir) (cpuID : Int) : Option Error :=
  match fs.ReadFile ((sys.ForCPU cpuID).Join "topology") "physical_package_id" with
  | .error _ => none
  | .ok text => failureOf (Atoi text)

/-- The four steps performed for one online CPU, in program order. -/
def cpuSteps (fs : Sysfs) (sys : Dir) (cpuID : Int) : List (Option Error) :=
  [ failureOf (fs.ReadList ((sys.ForCPU cpuID).Join "topology") "thread_siblings_list"),
    failureOf (fs.ReadList ((sys.ForCPU cpuID).Join "topology") "core_siblings_list"),
    failureOf (fs.ReadFile ((sys.ForCPU cpuID).Join "topology") "physical_package_id"),
    parseStep fs sys cpuID ]

/-- The steps performed for the online CPUs: none when the online list could
not be read. -/
def onlineSteps (fs : Sysfs) (sys : Dir) : Except Error (List Int) → List (Option Error)
  | .error _ => []
  | .ok online => online.flatMap (cpuSteps fs sys)

/-- The steps performed for the online nodes: none when the node list could
not be read. -/
def nodeSteps (fs : Sysfs) (sys : Dir) : Except Error (List Int) → List (Option Error)
  | .error _ => []
  | .ok nodes => nodes.map (fun node => failureOf (fs.ReadList (sys.ForNode node) "cpulist"))

/-- Every step that the claim about `NewCPUs` enumerates, in program order:
the three global list reads, then per online CPU the two sibling-list reads,
the package-id read and its parse, then per online node the cpulist read. -/
def programSteps (fs : Sysfs) (sysfsPath : String) : List (Option Error) :=
  [ failureOf (fs.ReadList ((Dir.New sysfsPath).Join PathDevsSysCPU) "present"),
    failureOf (fs.ReadList ((Dir.New sysfsPath).Join PathDevsSysCPU) "online"),
    failureOf (fs.ReadList ((Dir.New sysfsPath).Join PathDevsSysNode) "online") ]
  ++ onlineSteps fs (Dir.New sysfsPath)
      (fs.ReadList ((Dir.New sysfsPath).Join PathDevsSysCPU) "online")
  ++ nodeSteps fs (Dir.New sysfsPath)
      (fs.ReadList ((Dir.New sysfsPath).Join PathDevsSysNode) "online")

/-- CPU `cpu` is listed in the `cpulist` file of node `node`. -/
def listedUnder (fs : Sysfs) (sys : Dir) (cpu : Int) (node : Int) : Prop :=
  ∃ cpus, fs.ReadList (sys.ForNode node) "cpulist" = .ok cpus ∧ cpu ∈ cpus

/-- Every read and parse that `NewCPUs` depends on succeeds: the three global
list reads, the three topology reads and the integer parse for every online
CPU, and the cpulist read for every online node. -/
def allReadsSucceed (fs : Sysfs) (sysfsPath : String) : Prop :=
  ∃ present online nodes,
    fs.ReadList ((Dir.New sysfsPath).Join PathDevsSysCPU) "present" = .ok present ∧
    fs.ReadList ((Dir.New sysfsPath).Join PathDevsSysCPU) "online" = .ok online ∧
    fs.ReadList ((Dir.New sysfsPath).Join PathDevsSysNode) "online" = .ok nodes ∧
    (∀ c ∈ online,
      (∃ th, fs.ReadList (((Dir.New sysfsPath).ForCPU c).Join "topology")
        "thread_siblings_list" = .ok th) ∧
      (∃ co, fs.ReadList (((Dir.New sysfsPath).ForCPU c).Join "topology")
        "core_siblings_list" = .ok co) ∧
      (∃ text v, fs.ReadFile (((Dir.New sysfsPath).ForCPU c).Join "topology")
        "physical_package_id" = .ok text ∧ Atoi text = .ok v)) ∧
    (∀ n ∈ nodes, ∃ cpus, fs.ReadList ((Dir.New sysfsPath).ForNode n) "cpulist" = .ok cpus)

/-- Two filesystem states agree on every attribute that `NewCPUs` consults:
the three global lists, the topology attributes of the CPUs of the online
list, and the cpulist of the nodes of the online node list. -/
def agreeOnConsulted (fs1 fs2 : Sysfs) (sysfsPath : String) : Prop :=
  fs1.ReadList ((Dir.New sysfsPath).Join PathDevsSysCPU) "present"
    = fs2.ReadList ((Dir.New sysfsPath).Join PathDevsSysCPU) "present" ∧
  fs1.ReadList ((Dir.New sysfsPath).Join PathDevsSysCPU) "online"
    = fs2.ReadList ((Dir.New sysfsPath).Join PathDevsSysCPU) "online" ∧
  fs1.ReadList ((Dir.New sysfsPath).Join PathDevsSysNode) "online"
    = fs2.ReadList ((Dir.New sysfsPath).Join PathDevsSysNode) "online" ∧
  (∀ online, fs1.ReadList ((Dir.New sysfsPath).Join PathDevsSysCPU) "online" = .ok online →
    ∀ c ∈ online,
      fs1.ReadList (((Dir.New sysfsPath).ForCPU c).Join "topology") "thread_siblings_list"
        = fs2.ReadList (((Dir.New sysfsPath).ForCPU c).Join "topology") "thread_siblings_list" ∧
      fs1.ReadList (((Dir.New sysfsPath).ForCPU c).Join "topology") "core_siblings_list"
        = fs2.ReadList (((Dir.New sysfsPath).ForCPU c).Join "topology") "core_siblings_list" ∧
      fs1.ReadFile (((Dir.New sysfsPath).ForCPU c).Join "topology") "physical_package_id"
        = fs2.ReadFile (((Dir.New sysfsPath).ForCPU c).Join "topology") "physical_package_id") ∧
  (∀ nodes, fs1.ReadList ((Dir.New sysfsPath).Join PathDevsSysNode) "online" = .ok nodes →
    ∀ n ∈ nodes,
      fs1.ReadList ((Dir.New sysfsPath).ForNode n) "cpulist"
        = fs2.ReadList ((Dir.New sysfsPath).ForNode n) "cpulist")

/-- The tree `fsOverlap` with the text `x` as `physical_package_id` of CPU 1. -/
def fsBadPackageID : Sysfs where
  ReadList := fsOverlap.ReadList
  ReadFile := fun d name =>
    if d = ((Dir.New "/sys").ForCPU 1).Join "topology" ∧ name = "physical_package_id"
      then .ok "x"
    else fsOverlap.ReadFile d name

/-- The tree `fsOverlap` with a `present` list that lacks the online CPU 1. -/
def fsOnlineNotPresent : Sysfs where
  ReadList := fun d name =>
    if d = (Dir.New "/sys").Join PathDevsSysCPU ∧ name = "present" then .ok [0]
    else fsOverlap.ReadList d name
  ReadFile := fsOverlap.ReadFile

/-- The tree `fsOverlap` with attributes added for CPU 7 and node 5, neither of
which is online. -/
def fsOverlapExtra : Sysfs where
  ReadList := fun d name =>
    if d = ((Dir.New "/sys").ForCPU 7).Join "topology" ∧ name = "thread_siblings_list"
      then .ok [7]
    else if d = (Dir.New "/sys").ForNode 5 ∧ name = "cpulist" then .ok [7]
    else fsOverlap.ReadList d name
  ReadFile := fun d name =>
    if d = ((Dir.New "/sys").ForCPU 7).Join "topology" ∧ name = "physical_package_id"
      then .ok "3"
    else fsOverlap.ReadFile d name

/-! ## NUMA distance matrix

The package `numa/distances` is exercised by `distances_test.go`; its
implementation file `distances.go` is absent.  The definitions of this section
follow the specification of the distance matrix.
-/

/-- Modelled from the spec: the `Distances` value of the absent file
`numa/distances/distances.go`.  The ordered set of online node IDs, ascending
and without duplicates, and the distance rows stored keyed by node ID. -/
structure Distances where
  onlineNodes : List Int
  byNode : GoMap Int (List Int)

/-- Modelled from the spec: the outcome of the query `BetweenNodes` of the
absent `numa/distances/distances.go`.  A Go pair `(int, error)` with exactly
one side set, or a run-time panic. -/
inductive QueryResult where
  | value (dist : Int)
  | failure (err : Error)
  | panic
  deriving DecidableEq, Repr

/-- Modelled from the spec: the separator of the entries of a distance row,
decoded in the absent `numa/distances/distances.go`.  ASCII whitespace. -/
def isSpace (c : Char) : Bool :=
  c = ' ' ∨ c = '\t' ∨ c = '\n' ∨ c = '\r' ∨ c.toNat = 11 ∨ c.toNat = 12

/-- Modelled from the spec: the split of a distance row into its entries, done
in the absent `numa/distances/distances.go`.  The text is cut around runs of
whitespace; `cur` is the field being read. -/
def fieldsAux : List Char → List Char → List (List Char)
  | [], cur => if cur = [] then [] else [cur]
  | c :: cs, cur =>
    if isSpace c then
      (if cur = [] then fieldsAux cs [] else cur :: fieldsAux cs [])
    else fieldsAux cs (cur ++ [c])

/-- Modelled from the spec: the decoding of the entries of a distance row, done
in the absent `numa/distances/distances.go`.  Every field is parsed as an
integer and the first that is not one is a parse failure. -/
def parseFields : List (List Char) → Except Error (List Int)
  | [] => .ok []
  | f :: rest =>
    match Atoi (String.mk f) with
    | .error err => .error err
    | .ok v =>
      match parseFields rest with
      | .error err => .error err
      | .ok vs => .ok (v :: vs)

/-- Modelled from the spec: decoding of one distance row, absent with
`numa/distances/distances.go`.  A row is a line of whitespace-separated
integers. -/
def parseRow (text : String) : Except Error (List Int) :=
  parseFields (fieldsAux text.toList [])

/-- Modelled from the spec: steps 2 to 4 of the construction of the distance
matrix, absent with `numa/distances/distances.go`.  For each online node in
turn, its row is read and decoded, its length is checked against the node
count, and it is stored under the node ID. -/
def readRows (rowText : Int → Except Error String) (count : Nat) :
    List Int → GoMap Int (List Int) → Except Error (GoMap Int (List Int))
  | [], m => .ok m
  | node :: rest, m =>
    match rowText node with
    | .error err => .error err
    | .ok text =>
      match parseRow text with
      | .error err => .error err
      | .ok row =>
        if row.length = count then readRows rowText count rest (m.set node row)
        else .error (.malformedRow node row.length count)

/-- Modelled from the spec: step 1 of the construction of the distance matrix,
absent with `numa/distances/distances.go`.  The ordered set of online node
IDs: ascending, without duplicates. -/
def sortNodes (nodeIDs : List Int) : List Int :=
  (nodeIDs.dedup).insertionSort (fun a b => a ≤ b)

/-- Modelled from the spec: the construction shared by the two constructors of
the absent `numa/distances/distances.go`.  The online node IDs are put in
ascending order without duplicates, then one row per online node is read. -/
def buildDistances (nodeIDs : List Int) (rowText : Int → Except Error String) :
    Except Error Distances :=
  let nodes := sortNodes nodeIDs
  match readRows rowText nodes.length nodes GoMap.empty with
  | .error err => .error err
  | .ok rows => .ok { onlineNodes := nodes, byNode := rows }

/-- Modelled from the spec: the decoding of the keys of the row mapping of
`NewDistancesFromData`, absent with `numa/distances/distances.go`.  Each key is
a node ID as text. -/
def parseKeys : List (String × String) → Except Error (List (Int × String))
  | [] => .ok []
  | (key, text) :: rest =>
    match Atoi key with
    | .error err => .error err
    | .ok node =>
      match parseKeys rest with
      | .error err => .error err
      | .ok entries => .ok ((node, text) :: entries)

/-- Modelled from the spec: the lookup of the row text supplied for a node by
the row mapping of `NewDistancesFromData`, absent with
`numa/distances/distances.go`. -/
def rowTextOf : List (Int × String) → Int → Except Error String
  | [], node => .error (.unknownNode node)
  | (id, text) :: rest, node => if id = node then .ok text else rowTextOf rest node

/-- Modelled from the spec: the data-driven constructor `NewDistancesFromData`
of the absent `numa/distances/distances.go`.  The argument is the Go map from
node ID as text to row text, given as the list of its entries. -/
def NewDistancesFromData (data : List (String × String)) : Except Error Distances :=
  match parseKeys data with
  | .error err => .error err
  | .ok entries => buildDistances (entries.map Prod.fst) (rowTextOf entries)

/-- Modelled from the spec: the constructor `NewDistancesFromSysfs` of the
absent `numa/distances/distances.go`.  The online nodes are enumerated as in
`NewCPUs`, and each node's row is the content of its `distance` file. -/
def NewDistancesFromSysfs (fs : Sysfs) (sysfsPath : String) : Except Error Distances :=
  match fs.ReadList ((Dir.New sysfsPath).Join PathDevsSysNode) "online" with
  | .error err => .error err
  | .ok nodes =>
    buildDistances nodes (fun node => fs.ReadFile ((Dir.New sysfsPath).ForNode node) "distance")

/-- Modelled from the spec: the query `BetweenNodes` of the absent
`numa/distances/distances.go`.  It fails when either node is not a known
online node; otherwise it returns the stored cost, the entry of the row of
`nFrom` at the position of `nTo` among the online nodes.  Indexing outside
a row is a panic. -/
def Distances.BetweenNodes (d : Distances) (nFrom nTo : Int) : QueryResult :=
  if nFrom ∉ d.onlineNodes then .failure (.unknownNode nFrom)
  else if nTo ∉ d.onlineNodes then .failure (.unknownNode nTo)
  else
    match d.byNode nFrom with
    | none => .panic
    | some row =>
      match row[d.onlineNodes.indexOf nTo]? with
      | none => .panic
      | some v => .value v

/-- The position of a node in ascending node-ID order: the number of online
nodes with a smaller ID. -/
def positionOf (d : Distances) (node : Int) : Nat :=
  (d.onlineNodes.filter (fun m => m < node)).length

/-- The single-node rows of `TestDistancesBetweenNodes`. -/
def dataSingle : List (String × String) := [("0", "10\n")]

/-- The two-node rows of `TestReadDistances`. -/
def dataTwoNodes : List (String × String) := [("0", "10 21"), ("1", "21 10")]

/-- Rows for the online nodes 0 and 2, with asymmetric costs. -/
def dataSparse : List (String × String) := [("2", "30 10"), ("0", "10 21")]

/-- The fake tree of `TestReadDistances`: nodes 0 and 1 online, each with a
`distance` file. -/
def fsTwoNodes : Sysfs where
  ReadList := fun d name =>
    if d = (Dir.New "/tmp/fakesysfs/sys").Join PathDevsSysNode ∧ name = "online"
      then .ok [0, 1]
    else .error (.read "no such file")
  ReadFile := fun d name =>
    if d = (Dir.New "/tmp/fakesysfs/sys").ForNode 0 ∧ name = "distance" then .ok "10 21\n"
    else if d = (Dir.New "/tmp/fakesysfs/sys").ForNode 1 ∧ name = "distance" then .ok "21 10\n"
    else .error (.read "no such file")

/-- Node `node` is the ID written by one of the keys of a row mapping. -/
def keyedBy (data : List (String × String)) (node : Int) : Prop :=
  ∃ key text, (key, text) ∈ data ∧ Atoi key = .ok node

/-- Node `node` is in the online node list of a filesystem state. -/
def onlineNode (fs : Sysfs) (sysfsPath : String) (node : Int) : Prop :=
  ∃ nodes, fs.ReadList ((Dir.New sysfsPath).Join PathDevsSysNode) "online" = .ok nodes ∧
    node ∈ nodes

/-! ## Lemmas on the two loops of `NewCPUs` -/

theorem firstFailure_append (xs ys : List (Option Error)) :
    firstFailure (xs ++ ys) =
      match firstFailure xs with
      | some err => some err
      | none => firstFailure ys := by
  induction xs with
  | nil => simp only [List.nil_append, firstFailure]
  | cons x xs ih =>
    cases x with
    | none => simpa [firstFailure] using ih
    | some e => simp [firstFailure]

theorem cpuLoop_failure (fs : Sysfs) (sys : Dir) (l : List Int) (st : CPULoopState) :
    failureOf (cpuLoop fs sys l st) = firstFailure (l.flatMap (cpuSteps fs sys)) := by
  induction l generalizing st with
  | nil => rfl
  | cons c rest ih =>
    simp only [List.flatMap_cons, cpuLoop, cpuLoopBody, cpuSteps, parseStep]
    cases h1 : fs.ReadList ((sys.ForCPU c).Join "topology") "thread_siblings_list" with
    | error e => simp [failureOf, firstFailure]
    | ok th =>
      cases h2 : fs.ReadList ((sys.ForCPU c).Join "topology") "core_siblings_list" with
      | error e => simp [failureOf, firstFailure]
      | ok co =>
        cases h3 : fs.ReadFile ((sys.ForCPU c).Join "topology") "physical_package_id" with
        | error e => simp [failureOf, firstFailure]
        | ok text =>
          cases h4 : Atoi text with
          | error e => simp [failureOf, firstFailure, h4]
          | ok v => simpa [failureOf, firstFailure, h4] using ih _

theorem nodeLoop_failure (fs : Sysfs) (sys : Dir) (l : List Int) (st : NodeLoopState) :
    failureOf (nodeLoop fs sys l st) =
      firstFailure (l.map (fun node => failureOf (fs.ReadList (sys.ForNode node) "cpulist"))) := by
  induction l generalizing st with
  | nil => rfl
  | cons n rest ih =>
    simp only [List.map_cons, nodeLoop, nodeLoopBody]
    cases h1 : fs.ReadList (sys.ForNode n) "cpulist" with
    | error e => simp [failureOf, firstFailure]
    | ok cpus => simpa [failureOf, firstFailure] using ih _

theorem failureOf_eq_none {α : Type} (r : Except Error α) :
    failureOf r = none ↔ ∃ a, r = .ok a := by
  cases r <;> simp [failureOf]

theorem failureOf_eq_some {α : Type} (r : Except Error α) (e : Error) :
    failureOf r = some e ↔ r = .error e := by
  cases r <;> simp [failureOf]

/-- The outcome of `NewCPUs` in terms of its five stages. -/
theorem NewCPUs_ok_iff (fs : Sysfs) (p : String) (s : CPUs) :
    NewCPUs fs p = (some s, none) ↔
      ∃ present online nodes cst nst,
        fs.ReadList ((Dir.New p).Join PathDevsSysCPU) "present" = .ok present ∧
        fs.ReadList ((Dir.New p).Join PathDevsSysCPU) "online" = .ok online ∧
        fs.ReadList ((Dir.New p).Join PathDevsSysNode) "online" = .ok nodes ∧
        cpuLoop fs (Dir.New p) online CPULoopState.init = .ok cst ∧
        nodeLoop fs (Dir.New p) nodes NodeLoopState.init = .ok nst ∧
        s = { Present := present, Online := online, CoreCPUs := cst.coreCPUs,
              PackageCPUs := cst.packageCPUs, Packages := cst.packageIds,
              NUMANodes := nodes, NUMANodeCPUs := nst.numaNodeCPUs,
              cpuID2NUMANode := nst.cpuID2NUMANode } := by
  cases h1 : fs.ReadList ((Dir.New p).Join PathDevsSysCPU) "present" with
  | error e => simp [NewCPUs, h1]
  | ok present =>
    cases h2 : fs.ReadList ((Dir.New p).Join PathDevsSysCPU) "online" with
    | error e => simp [NewCPUs, h1, h2]
    | ok online =>
      cases h3 : fs.ReadList ((Dir.New p).Join PathDevsSysNode) "online" with
      | error e => simp [NewCPUs, h1, h2, h3]
      | ok nodes =>
        cases h4 : cpuLoop fs (Dir.New p) online CPULoopState.init with
        | error e => simp [NewCPUs, h1, h2, h3, h4]
        | ok cst =>
          cases h5 : nodeLoop fs (Dir.New p) nodes NodeLoopState.init with
          | error e => simp [NewCPUs, h1, h2, h3, h4, h5]
          | ok nst =>
            simp only [NewCPUs, h1, h2, h3, h4, h5, Prod.mk.injEq, Option.some.injEq, and_true,
              Except.ok.injEq]
            constructor
            · intro h
              exact ⟨present, online, nodes, cst, nst, rfl, rfl, rfl, h4, h5, h.symm⟩
            · rintro ⟨_, _, _, c1, n1, rfl, rfl, rfl, hc, hn, h⟩
              rw [h4] at hc
              rw [h5] at hn
              cases hc
              cases hn
              exact h.symm

theorem cpuLoop_cons_ok {fs : Sysfs} {sys : Dir} {c : Int} {rest : List Int}
    {st st1 : CPULoopState} (h : cpuLoop fs sys (c :: rest) st = .ok st1) :
    ∃ th co text v,
      fs.ReadList ((sys.ForCPU c).Join "topology") "thread_siblings_list" = .ok th ∧
      fs.ReadList ((sys.ForCPU c).Join "topology") "core_siblings_list" = .ok co ∧
      fs.ReadFile ((sys.ForCPU c).Join "topology") "physical_package_id" = .ok text ∧
      Atoi text = .ok v ∧
      cpuLoop fs sys rest
        { packageIds := st.packageIds ++ [v]
          coreCPUs := st.coreCPUs.set c th
          packageCPUs := st.packageCPUs.set c co
          packages := fun k => if k = text then st.packages text ++ [c] else st.packages k }
        = .ok st1 := by
  cases h1 : fs.ReadList ((sys.ForCPU c).Join "topology") "thread_siblings_list" with
  | error e => simp [cpuLoop, cpuLoopBody, h1] at h
  | ok th =>
    cases h2 : fs.ReadList ((sys.ForCPU c).Join "topology") "core_siblings_list" with
    | error e => simp [cpuLoop, cpuLoopBody, h1, h2] at h
    | ok co =>
      cases h3 : fs.ReadFile ((sys.ForCPU c).Join "topology") "physical_package_id" with
      | error e => simp [cpuLoop, cpuLoopBody, h1, h2, h3] at h
      | ok text =>
        cases h4 : Atoi text with
        | error e => simp [cpuLoop, cpuLoopBody, h1, h2, h3, h4] at h
        | ok v =>
          simp only [cpuLoop, cpuLoopBody, h1, h2, h3, h4] at h
          exact ⟨th, co, text, v, rfl, rfl, rfl, h4, h⟩

theorem nodeLoop_cons_ok {fs : Sysfs} {sys : Dir} {n : Int} {rest : List Int}
    {st st1 : NodeLoopState} (h : nodeLoop fs sys (n :: rest) st = .ok st1) :
    ∃ cpus,
      fs.ReadList (sys.ForNode n) "cpulist" = .ok cpus ∧
      nodeLoop fs sys rest
        { numaNodeCPUs := st.numaNodeCPUs.set n cpus
          cpuID2NUMANode := assignNode n cpus st.cpuID2NUMANode } = .ok st1 := by
  cases h1 : fs.ReadList (sys.ForNode n) "cpulist" with
  | error e => simp [nodeLoop, nodeLoopBody, h1] at h
  | ok cpus =>
    simp only [nodeLoop, nodeLoopBody, h1] at h
    exact ⟨cpus, rfl, h⟩

theorem assignNode_apply (node : Int) (cpus : List Int) (m : GoMap Int Int) (c : Int) :
    assignNode node cpus m c = if c ∈ cpus then some node else m c := by
  induction cpus generalizing m with
  | nil => simp [assignNode]
  | cons a rest ih =>
    simp only [assignNode, ih, GoMap.set, List.mem_cons]
    by_cases h1 : c ∈ rest
    · simp [h1]
    · by_cases h2 : c = a <;> simp [h1, h2]

/-- Keys outside the iterated list keep their entries; every iterated key is
bound to the two sibling lists read for it. -/
theorem cpuLoop_maps {fs : Sysfs} {sys : Dir} {l : List Int} {st st1 : CPULoopState}
    (h : cpuLoop fs sys l st = .ok st1) (k : Int) :
    (k ∉ l → st1.coreCPUs k = st.coreCPUs k ∧ st1.packageCPUs k = st.packageCPUs k) ∧
    (k ∈ l → ∃ th co,
      fs.ReadList ((sys.ForCPU k).Join "topology") "thread_siblings_list" = .ok th ∧
      fs.ReadList ((sys.ForCPU k).Join "topology") "core_siblings_list" = .ok co ∧
      st1.coreCPUs k = some th ∧ st1.packageCPUs k = some co) := by
  induction l generalizing st with
  | nil =>
    simp only [cpuLoop, Except.ok.injEq] at h
    subst h
    simp
  | cons c rest ih =>
    obtain ⟨th, co, text, v, h1, h2, _, _, hrest⟩ := cpuLoop_cons_ok h
    have IH := ih hrest
    constructor
    · intro hk
      simp only [List.mem_cons, not_or] at hk
      have := IH.1 hk.2
      simpa [GoMap.set, hk.1] using this
    · intro hk
      by_cases hr : k ∈ rest
      · exact IH.2 hr
      · have hkc : k = c := by
          rcases List.mem_cons.1 hk with h0 | h0
          · exact h0
          · exact absurd h0 hr
        subst hkc
        have := IH.1 hr
        refine ⟨th, co, h1, h2, ?_, ?_⟩
        · simpa [GoMap.set] using this.1
        · simpa [GoMap.set] using this.2

/-- The package IDs appended by the loop are, position by position, the parsed
`physical_package_id` of the iterated CPUs. -/
theorem cpuLoop_packageIds {fs : Sysfs} {sys : Dir} {l : List Int} {st st1 : CPULoopState}
    (h : cpuLoop fs sys l st = .ok st1) :
    ∃ ids, st1.packageIds = st.packageIds ++ ids ∧
      List.Forall₂ (fun c v => ∃ text,
        fs.ReadFile ((sys.ForCPU c).Join "topology") "physical_package_id" = .ok text ∧
        Atoi text = .ok v) l ids := by
  induction l generalizing st with
  | nil =>
    simp only [cpuLoop, Except.ok.injEq] at h
    subst h
    exact ⟨[], by simp, List.Forall₂.nil⟩
  | cons c rest ih =>
    obtain ⟨th, co, text, v, _, _, h3, h4, hrest⟩ := cpuLoop_cons_ok h
    obtain ⟨ids, hids, hall⟩ := ih hrest
    refine ⟨v :: ids, ?_, List.Forall₂.cons ⟨text, h3, h4⟩ hall⟩
    simpa using hids

theorem nodeLoop_numaNodeCPUs {fs : Sysfs} {sys : Dir} {l : List Int} {st st1 : NodeLoopState}
    (h : nodeLoop fs sys l st = .ok st1) (k : Int) :
    (k ∉ l → st1.numaNodeCPUs k = st.numaNodeCPUs k) ∧
    (k ∈ l → ∃ cpus, fs.ReadList (sys.ForNode k) "cpulist" = .ok cpus ∧
      st1.numaNodeCPUs k = some cpus) := by
  induction l generalizing st with
  | nil =>
    simp only [nodeLoop, Except.ok.injEq] at h
    subst h
    simp
  | cons n rest ih =>
    obtain ⟨cpus, h1, hrest⟩ := nodeLoop_cons_ok h
    have IH := ih hrest
    constructor
    · intro hk
      simp only [List.mem_cons, not_or] at hk
      have := IH.1 hk.2
      simpa [GoMap.set, hk.1] using this
    · intro hk
      by_cases hr : k ∈ rest
      · exact IH.2 hr
      · have hkn : k = n := by
          rcases List.mem_cons.1 hk with h0 | h0
          · exact h0
          · exact absurd h0 hr
        subst hkn
        have := IH.1 hr
        exact ⟨cpus, h1, by simpa [GoMap.set] using this⟩

/-- A CPU listed under no iterated node keeps its reverse-index entry. -/
theorem nodeLoop_unlisted {fs : Sysfs} {sys : Dir} {l : List Int} {st st1 : NodeLoopState}
    (h : nodeLoop fs sys l st = .ok st1) (c : Int)
    (hc : ∀ m ∈ l, ¬ listedUnder fs sys c m) :
    st1.cpuID2NUMANode c = st.cpuID2NUMANode c := by
  induction l generalizing st with
  | nil =>
    simp only [nodeLoop, Except.ok.injEq] at h
    subst h
    rfl
  | cons n rest ih =>
    obtain ⟨cpus, h1, hrest⟩ := nodeLoop_cons_ok h
    have IH := ih hrest (fun m hm => hc m (List.mem_cons_of_mem _ hm))
    have hn : c ∉ cpus := fun hin => hc n (List.mem_cons_self _ _) ⟨cpus, h1, hin⟩
    rw [IH]
    simp [assignNode_apply, hn]

/-- A reverse-index entry present after the loop was either there before or
names an iterated node that lists the CPU. -/
theorem nodeLoop_some {fs : Sysfs} {sys : Dir} {l : List Int} {st st1 : NodeLoopState}
    (h : nodeLoop fs sys l st = .ok st1) (c n : Int)
    (hc : st1.cpuID2NUMANode c = some n) :
    st.cpuID2NUMANode c = some n ∨ (n ∈ l ∧ listedUnder fs sys c n) := by
  induction l generalizing st with
  | nil =>
    simp only [nodeLoop, Except.ok.injEq] at h
    subst h
    exact Or.inl hc
  | cons a rest ih =>
    obtain ⟨cpus, h1, hrest⟩ := nodeLoop_cons_ok h
    rcases ih hrest with h0 | ⟨hmem, hl⟩
    · simp only [assignNode_apply] at h0
      by_cases hin : c ∈ cpus
      · simp only [hin, if_true, Option.some.injEq] at h0
        subst h0
        exact Or.inr ⟨List.mem_cons_self _ _, cpus, h1, hin⟩
      · simp only [hin, if_false] at h0
        exact Or.inl h0
    · exact Or.inr ⟨List.mem_cons_of_mem _ hmem, hl⟩

theorem nodeLoop_append {fs : Sysfs} {sys : Dir} (pre post : List Int) {st st1 : NodeLoopState}
    (h : nodeLoop fs sys (pre ++ post) st = .ok st1) :
    ∃ st2, nodeLoop fs sys pre st = .ok st2 ∧ nodeLoop fs sys post st2 = .ok st1 := by
  induction pre generalizing st with
  | nil => exact ⟨st, rfl, h⟩
  | cons a rest ih =>
    obtain ⟨cpus, h1, hrest⟩ := nodeLoop_cons_ok h
    obtain ⟨st2, h2, h3⟩ := ih hrest
    refine ⟨st2, ?_, h3⟩
    simpa [nodeLoop, nodeLoopBody, h1] using h2

/-- The last iterated node that lists a CPU owns its reverse-index entry. -/
theorem nodeLoop_last {fs : Sysfs} {sys : Dir} (pre post : List Int) (n : Int)
    {st st1 : NodeLoopState} (h : nodeLoop fs sys (pre ++ n :: post) st = .ok st1) (c : Int)
    (hn : listedUnder fs sys c n) (hpost : ∀ m ∈ post, ¬ listedUnder fs sys c m) :
    st1.cpuID2NUMANode c = some n := by
  obtain ⟨st2, _, h2⟩ := nodeLoop_append pre (n :: post) h
  obtain ⟨cpus, h1, hrest⟩ := nodeLoop_cons_ok h2
  obtain ⟨cpus1, h1b, hin⟩ := hn
  rw [h1] at h1b
  cases h1b
  rw [nodeLoop_unlisted hrest c hpost]
  simp [assignNode_apply, hin]

/-- A CPU listed under some iterated node has a reverse-index entry. -/
theorem nodeLoop_listed {fs : Sysfs} {sys : Dir} {l : List Int} {st st1 : NodeLoopState}
    (h : nodeLoop fs sys l st = .ok st1) (c : Int) :
    ∀ n ∈ l, listedUnder fs sys c n → ∃ m, st1.cpuID2NUMANode c = some m := by
  induction l generalizing st with
  | nil => intro n hmem; cases hmem
  | cons a rest ih =>
    intro n hmem hn
    obtain ⟨cpus, h1, hrest⟩ := nodeLoop_cons_ok h
    by_cases hex : ∃ m ∈ rest, listedUnder fs sys c m
    · obtain ⟨m, hm, hl⟩ := hex
      exact ih hrest m hm hl
    · have hnone : ∀ m ∈ rest, ¬ listedUnder fs sys c m := fun m hm hl => hex ⟨m, hm, hl⟩
      have hna : n = a := by
        rcases List.mem_cons.1 hmem with h0 | h0
        · exact h0
        · exact absurd hn (hnone n h0)
      subst hna
      obtain ⟨cpus1, h1b, hin⟩ := hn
      rw [h1] at h1b
      cases h1b
      refine ⟨n, ?_⟩
      rw [nodeLoop_unlisted hrest c hnone]
      simp [assignNode_apply, hin]

theorem firstFailure_eq_none (xs : List (Option Error)) :
    firstFailure xs = none ↔ ∀ x ∈ xs, x = none := by
  induction xs with
  | nil => simp [firstFailure]
  | cons x xs ih =>
    cases x with
    | none => simp [firstFailure, ih]
    | some e => simp [firstFailure]

theorem firstFailure_mem (xs : List (Option Error)) (e : Error)
    (h : firstFailure xs = some e) : some e ∈ xs := by
  induction xs with
  | nil => simp [firstFailure] at h
  | cons x xs ih =>
    cases x with
    | none =>
      simp only [firstFailure] at h
      exact List.mem_cons_of_mem _ (ih h)
    | some e1 =>
      simp only [firstFailure, Option.some.injEq] at h
      subst h
      exact List.mem_cons_self _ _

/-- The error component of `NewCPUs` is the first failure among its steps in
program order. -/
theorem NewCPUs_error_eq (fs : Sysfs) (p : String) :
    (NewCPUs fs p).2 = firstFailure (programSteps fs p) := by
  cases h1 : fs.ReadList ((Dir.New p).Join PathDevsSysCPU) "present" with
  | error e => simp [NewCPUs, programSteps, h1, failureOf, firstFailure]
  | ok present =>
    cases h2 : fs.ReadList ((Dir.New p).Join PathDevsSysCPU) "online" with
    | error e => simp [NewCPUs, programSteps, h1, h2, failureOf, firstFailure]
    | ok online =>
      cases h3 : fs.ReadList ((Dir.New p).Join PathDevsSysNode) "online" with
      | error e => simp [NewCPUs, programSteps, h1, h2, h3, failureOf, firstFailure]
      | ok nodes =>
        have hc := cpuLoop_failure fs (Dir.New p) online CPULoopState.init
        have hn := nodeLoop_failure fs (Dir.New p) nodes NodeLoopState.init
        simp only [NewCPUs, programSteps, h1, h2, h3, failureOf, firstFailure, onlineSteps,
          nodeSteps, List.cons_append, List.nil_append, firstFailure_append]
        cases h4 : cpuLoop fs (Dir.New p) online CPULoopState.init with
        | error e =>
          rw [h4] at hc
          simp only [failureOf] at hc
          simp [← hc]
        | ok cst =>
          rw [h4] at hc
          simp only [failureOf] at hc
          cases h5 : nodeLoop fs (Dir.New p) nodes NodeLoopState.init with
          | error e =>
            rw [h5] at hn
            simp only [failureOf] at hn
            simp [← hc, ← hn, failureOf]
          | ok nst =>
            rw [h5] at hn
            simp only [failureOf] at hn
            simp [← hc, ← hn, failureOf]

/-- Snapshot and error are never both `nil` and never both non-`nil`. -/
theorem NewCPUs_fst_none_iff (fs : Sysfs) (p : String) :
    (NewCPUs fs p).1 = none ↔ (NewCPUs fs p).2 ≠ none := by
  cases h1 : fs.ReadList ((Dir.New p).Join PathDevsSysCPU) "present" with
  | error e => simp [NewCPUs, h1]
  | ok present =>
    cases h2 : fs.ReadList ((Dir.New p).Join PathDevsSysCPU) "online" with
    | error e => simp [NewCPUs, h1, h2]
    | ok online =>
      cases h3 : fs.ReadList ((Dir.New p).Join PathDevsSysNode) "online" with
      | error e => simp [NewCPUs, h1, h2, h3]
      | ok nodes =>
        cases h4 : cpuLoop fs (Dir.New p) online CPULoopState.init with
        | error e => simp [NewCPUs, h1, h2, h3, h4]
        | ok cst =>
          cases h5 : nodeLoop fs (Dir.New p) nodes NodeLoopState.init with
          | error e => simp [NewCPUs, h1, h2, h3, h4, h5]
          | ok nst => simp [NewCPUs, h1, h2, h3, h4, h5]

theorem forall₂_getElem? {α β : Type} {R : α → β → Prop} {l : List α} {ids : List β}
    (h : List.Forall₂ R l ids) :
    ∀ (i : Nat) (c : α), l[i]? = some c → ∃ v, ids[i]? = some v ∧ R c v := by
  induction h with
  | nil => intro i c hc; simp at hc
  | cons hr _ ih =>
    intro i c hc
    cases i with
    | zero =>
      simp only [List.getElem?_cons_zero, Option.some.injEq] at hc
      subst hc
      exact ⟨_, by simp, hr⟩
    | succ i =>
      simp only [List.getElem?_cons_succ] at hc
      obtain ⟨v, hv, hR⟩ := ih i c hc
      exact ⟨v, by simpa using hv, hR⟩

theorem cpuLoop_congr (fs1 fs2 : Sysfs) (sys : Dir) (l : List Int) (st : CPULoopState)
    (h : ∀ c ∈ l,
      fs1.ReadList ((sys.ForCPU c).Join "topology") "thread_siblings_list"
        = fs2.ReadList ((sys.ForCPU c).Join "topology") "thread_siblings_list" ∧
      fs1.ReadList ((sys.ForCPU c).Join "topology") "core_siblings_list"
        = fs2.ReadList ((sys.ForCPU c).Join "topology") "core_siblings_list" ∧
      fs1.ReadFile ((sys.ForCPU c).Join "topology") "physical_package_id"
        = fs2.ReadFile ((sys.ForCPU c).Join "topology") "physical_package_id") :
    cpuLoop fs1 sys l st = cpuLoop fs2 sys l st := by
  induction l generalizing st with
  | nil => rfl
  | cons c rest ih =>
    obtain ⟨e1, e2, e3⟩ := h c (List.mem_cons_self _ _)
    have hb : cpuLoopBody fs1 sys st c = cpuLoopBody fs2 sys st c := by
      simp only [cpuLoopBody, e1, e2, e3]
    simp only [cpuLoop, hb]
    cases cpuLoopBody fs2 sys st c with
    | error e => rfl
    | ok st1 => exact ih st1 (fun c hc => h c (List.mem_cons_of_mem _ hc))

theorem nodeLoop_congr (fs1 fs2 : Sysfs) (sys : Dir) (l : List Int) (st : NodeLoopState)
    (h : ∀ n ∈ l,
      fs1.ReadList (sys.ForNode n) "cpulist" = fs2.ReadList (sys.ForNode n) "cpulist") :
    nodeLoop fs1 sys l st = nodeLoop fs2 sys l st := by
  induction l generalizing st with
  | nil => rfl
  | cons n rest ih =>
    have hb : nodeLoopBody fs1 sys st n = nodeLoopBody fs2 sys st n := by
      simp only [nodeLoopBody, h n (List.mem_cons_self _ _)]
    simp only [nodeLoop, hb]
    cases nodeLoopBody fs2 sys st n with
    | error e => rfl
    | ok st1 => exact ih st1 (fun n hn => h n (List.mem_cons_of_mem _ hn))

theorem cpuLoop_ok_iff (fs : Sysfs) (sys : Dir) (l : List Int) (st : CPULoopState) :
    (∃ st1, cpuLoop fs sys l st = .ok st1) ↔
      ∀ c ∈ l,
        (∃ th, fs.ReadList ((sys.ForCPU c).Join "topology") "thread_siblings_list" = .ok th) ∧
        (∃ co, fs.ReadList ((sys.ForCPU c).Join "topology") "core_siblings_list" = .ok co) ∧
        (∃ text v, fs.ReadFile ((sys.ForCPU c).Join "topology") "physical_package_id"
          = .ok text ∧ Atoi text = .ok v) := by
  induction l generalizing st with
  | nil => simp [cpuLoop]
  | cons c rest ih =>
    constructor
    · rintro ⟨st1, h⟩
      obtain ⟨th, co, text, v, h1, h2, h3, h4, hrest⟩ := cpuLoop_cons_ok h
      intro k hk
      rcases List.mem_cons.1 hk with rfl | hk
      · exact ⟨⟨th, h1⟩, ⟨co, h2⟩, ⟨text, v, h3, h4⟩⟩
      · exact (ih _).1 ⟨st1, hrest⟩ k hk
    · intro h
      obtain ⟨⟨th, h1⟩, ⟨co, h2⟩, ⟨text, v, h3, h4⟩⟩ := h c (List.mem_cons_self _ _)
      simp only [cpuLoop, cpuLoopBody, h1, h2, h3, h4]
      exact (ih _).2 (fun k hk => h k (List.mem_cons_of_mem _ hk))

theorem nodeLoop_ok_iff (fs : Sysfs) (sys : Dir) (l : List Int) (st : NodeLoopState) :
    (∃ st1, nodeLoop fs sys l st = .ok st1) ↔
      ∀ n ∈ l, ∃ cpus, fs.ReadList (sys.ForNode n) "cpulist" = .ok cpus := by
  induction l generalizing st with
  | nil => simp [nodeLoop]
  | cons n rest ih =>
    constructor
    · rintro ⟨st1, h⟩
      obtain ⟨cpus, h1, hrest⟩ := nodeLoop_cons_ok h
      intro k hk
      rcases List.mem_cons.1 hk with rfl | hk
      · exact ⟨cpus, h1⟩
      · exact (ih _).1 ⟨st1, hrest⟩ k hk
    · intro h
      obtain ⟨cpus, h1⟩ := h n (List.mem_cons_self _ _)
      simp only [nodeLoop, nodeLoopBody, h1]
      exact (ih _).2 (fun k hk => h k (List.mem_cons_of_mem _ hk))

/-! ## Properties of `NewCPUs` and `GetNodeIDForCPU` -/

/-- C1: `NewCPUs` is all-or-nothing.  Its error is exactly the first failure,
in program order, among the reads and parses it performs; a failing step
forces a `nil` snapshot with that error; and the snapshot is `nil` exactly when
the error is not, so a non-`nil` snapshot never comes with an error. -/
theorem NewCPUs_all_or_nothing (fs : Sysfs) (sysfsPath : String) :
    (NewCPUs fs sysfsPath).2 = firstFailure (programSteps fs sysfsPath) ∧
    ((∃ step ∈ programSteps fs sysfsPath, step ≠ none) →
      ∃ err, firstFailure (programSteps fs sysfsPath) = some err ∧
        NewCPUs fs sysfsPath = (none, some err)) ∧
    ((NewCPUs fs sysfsPath).1 = none ↔ (NewCPUs fs sysfsPath).2 ≠ none) ∧
    (∀ s err, NewCPUs fs sysfsPath ≠ (some s, some err)) := by
  have herr := NewCPUs_error_eq fs sysfsPath
  have hfst := NewCPUs_fst_none_iff fs sysfsPath
  refine ⟨herr, ?_, hfst, ?_⟩
  · rintro ⟨step, hmem, hne⟩
    cases hff : firstFailure (programSteps fs sysfsPath) with
    | none => exact absurd ((firstFailure_eq_none _).1 hff step hmem) hne
    | some err =>
      refine ⟨err, rfl, ?_⟩
      rw [hff] at herr
      have h1 : (NewCPUs fs sysfsPath).1 = none := hfst.2 (by simp [herr])
      exact Prod.ext h1 herr
  · intro s err h
    have h1 : (NewCPUs fs sysfsPath).1 = none := hfst.2 (by simp [h])
    simp [h] at h1

/-- Witness for C1: in `fsBadPackageID` the first failing step is the parse of
CPU 1's package id, and `NewCPUs` returns `nil` with that error. -/
theorem NewCPUs_all_or_nothing_witness :
    (∃ step ∈ programSteps fsBadPackageID "/sys", step ≠ none) ∧
    (NewCPUs fsBadPackageID "/sys").2 = some (Error.num "Atoi" "x" NumErrCause.ErrSyntax) ∧
    ((NewCPUs fsBadPackageID "/sys").1 = none ↔ (NewCPUs fsBadPackageID "/sys").2 ≠ none) :=
  ⟨⟨some (Error.num "Atoi" "x" NumErrCause.ErrSyntax), by decide, by decide⟩,
   (NewCPUs_all_or_nothing fsBadPackageID "/sys").1.trans (by decide),
   (NewCPUs_all_or_nothing fsBadPackageID "/sys").2.2.1⟩

/-- C2: after a successful build the keys of `CoreCPUs` and of `PackageCPUs`
are exactly the CPU IDs of `Online`. -/
theorem NewCPUs_keys_eq_online (fs : Sysfs) (sysfsPath : String) (s : CPUs)
    (h : NewCPUs fs sysfsPath = (some s, none)) (k : Int) :
    ((s.CoreCPUs k).isSome ↔ k ∈ s.Online) ∧ ((s.PackageCPUs k).isSome ↔ k ∈ s.Online) := by
  obtain ⟨present, online, nodes, cst, nst, _, _, _, hc, _, rfl⟩ :=
    (NewCPUs_ok_iff fs sysfsPath s).1 h
  have hm := cpuLoop_maps hc k
  by_cases hk : k ∈ online
  · obtain ⟨th, co, _, _, e1, e2⟩ := hm.2 hk
    simp [e1, e2, hk]
  · obtain ⟨e1, e2⟩ := hm.1 hk
    simp [e1, e2, hk, CPULoopState.init, GoMap.empty]

/-- Witness for C2 on `fsOverlap`: CPU 1 is online and a key of both maps,
CPU 2 is neither. -/
theorem NewCPUs_keys_eq_online_witness :
    ∃ s, NewCPUs fsOverlap "/sys" = (some s, none) ∧
      (((s.CoreCPUs 1).isSome ↔ 1 ∈ s.Online) ∧ ((s.PackageCPUs 1).isSome ↔ 1 ∈ s.Online)) ∧
      (((s.CoreCPUs 2).isSome ↔ 2 ∈ s.Online) ∧ ((s.PackageCPUs 2).isSome ↔ 2 ∈ s.Online)) ∧
      1 ∈ s.Online ∧ 2 ∉ s.Online :=
  ⟨_, rfl, NewCPUs_keys_eq_online fsOverlap "/sys" _ rfl 1,
    NewCPUs_keys_eq_online fsOverlap "/sys" _ rfl 2, by decide, by decide⟩

/-- C3: the field comment of `CPUs.Online` states that `Online` is a subset of
`Present`; `NewCPUs` does not establish it.  On `fsOnlineNotPresent`, whose
`present` list is `[0]` and whose `online` list is `[0, 1]`, the build succeeds
with `Present = [0]` and `Online = [0, 1]`: CPU 1 is in `Online` and not in
`Present`. -/
theorem NewCPUs_online_not_subset_present :
    ∃ s, NewCPUs fsOnlineNotPresent "/sys" = (some s, none) ∧
      s.Present = [0] ∧ s.Online = [0, 1] ∧
      (1 : Int) ∈ s.Online ∧ (1 : Int) ∉ s.Present :=
  ⟨_, rfl, rfl, rfl, by decide, by decide⟩

/-- C4: after a successful build, `GetNodeIDForCPU c` reports `found = false`
exactly when `c` occurs in no value list of `NUMANodeCPUs`; and when it
reports `(n, true)`, `n` is in `NUMANodes` and `c` occurs in `NUMANodeCPUs[n]`. -/
theorem GetNodeIDForCPU_found_iff (fs : Sysfs) (sysfsPath : String) (s : CPUs)
    (h : NewCPUs fs sysfsPath = (some s, none)) (c : Int) :
    ((s.GetNodeIDForCPU c).2 = false ↔
      ∀ n cpus, s.NUMANodeCPUs n = some cpus → c ∉ cpus) ∧
    (∀ n, s.GetNodeIDForCPU c = (n, true) →
      n ∈ s.NUMANodes ∧ ∃ cpus, s.NUMANodeCPUs n = some cpus ∧ c ∈ cpus) := by
  obtain ⟨present, online, nodes, cst, nst, _, _, _, _, hn, rfl⟩ :=
    (NewCPUs_ok_iff fs sysfsPath s).1 h
  have key : ∀ n, nst.cpuID2NUMANode c = some n →
      n ∈ nodes ∧ ∃ cpus, nst.numaNodeCPUs n = some cpus ∧ c ∈ cpus := by
    intro n hsome
    rcases nodeLoop_some hn c n hsome with h0 | ⟨hmem, cpus, hread, hin⟩
    · simp [NodeLoopState.init, GoMap.empty] at h0
    · obtain ⟨cpus1, hread1, hmap⟩ := (nodeLoop_numaNodeCPUs hn n).2 hmem
      rw [hread] at hread1
      cases hread1
      exact ⟨hmem, cpus, hmap, hin⟩
  constructor
  · constructor
    · intro hfalse n cpus hmap hin
      change nst.numaNodeCPUs n = some cpus at hmap
      have hmem : n ∈ nodes := by
        by_contra hnot
        have := (nodeLoop_numaNodeCPUs hn n).1 hnot
        rw [hmap] at this
        simp [NodeLoopState.init, GoMap.empty] at this
      obtain ⟨cpus1, hread, hmap1⟩ := (nodeLoop_numaNodeCPUs hn n).2 hmem
      rw [hmap] at hmap1
      cases hmap1
      obtain ⟨m, hm⟩ := nodeLoop_listed hn c n hmem ⟨cpus, hread, hin⟩
      simp [CPUs.GetNodeIDForCPU, hm] at hfalse
    · intro hall
      cases hm : nst.cpuID2NUMANode c with
      | none => simp [CPUs.GetNodeIDForCPU, hm]
      | some n =>
        obtain ⟨_, cpus, hmap, hin⟩ := key n hm
        exact absurd hin (hall n cpus hmap)
  · intro n hget
    cases hm : nst.cpuID2NUMANode c with
    | none => simp [CPUs.GetNodeIDForCPU, hm] at hget
    | some n1 =>
      simp only [CPUs.GetNodeIDForCPU, hm, Prod.mk.injEq, and_true] at hget
      subst hget
      exact key n1 hm

/-- Witness for C4 on `fsOverlap`: CPU 1 is found on node 1, which is online and
lists it; CPU 9 is listed nowhere and is not found. -/
theorem GetNodeIDForCPU_found_iff_witness :
    ∃ s, NewCPUs fsOverlap "/sys" = (some s, none) ∧
      s.GetNodeIDForCPU 1 = (1, true) ∧
      ((1 : Int) ∈ s.NUMANodes ∧ ∃ cpus, s.NUMANodeCPUs 1 = some cpus ∧ (1 : Int) ∈ cpus) ∧
      (s.GetNodeIDForCPU 9).2 = false ∧
      (∀ n cpus, s.NUMANodeCPUs n = some cpus → (9 : Int) ∉ cpus) :=
  ⟨_, rfl, rfl, (GetNodeIDForCPU_found_iff fsOverlap "/sys" _ rfl 1).2 1 rfl, rfl,
    (GetNodeIDForCPU_found_iff fsOverlap "/sys" _ rfl 9).1.1 rfl⟩

/-- C5: after a successful build `Packages` has one entry per online CPU and is
index-aligned with `Online`: the lengths agree and `Packages[i]` is the integer
parsed from the `physical_package_id` of CPU `Online[i]`, duplicates included. -/
theorem NewCPUs_packages_aligned (fs : Sysfs) (sysfsPath : String) (s : CPUs)
    (h : NewCPUs fs sysfsPath = (some s, none)) :
    s.Packages.length = s.Online.length ∧
    ∀ (i : Nat) (c : Int), s.Online[i]? = some c →
      ∃ text v,
        fs.ReadFile (((Dir.New sysfsPath).ForCPU c).Join "topology") "physical_package_id"
          = .ok text ∧
        Atoi text = .ok v ∧ s.Packages[i]? = some v := by
  obtain ⟨present, online, nodes, cst, nst, _, _, _, hc, _, rfl⟩ :=
    (NewCPUs_ok_iff fs sysfsPath s).1 h
  obtain ⟨ids, hids, hall⟩ := cpuLoop_packageIds hc
  simp only [CPULoopState.init, List.nil_append] at hids
  subst hids
  refine ⟨by simpa using hall.length_eq.symm, ?_⟩
  intro i c hi
  obtain ⟨v, hv, text, h1, h2⟩ := forall₂_getElem? hall i c hi
  exact ⟨text, v, h1, h2, by simpa using hv⟩

/-- Witness for C5 on `fsOverlap`: both online CPUs are in package 0 and
`Packages` is `[0, 0]`. -/
theorem NewCPUs_packages_aligned_witness :
    ∃ s, NewCPUs fsOverlap "/sys" = (some s, none) ∧
      s.Packages = [0, 0] ∧ s.Online = [0, 1] ∧
      s.Packages.length = s.Online.length ∧
      ∃ text v,
        fsOverlap.ReadFile (((Dir.New "/sys").ForCPU 1).Join "topology") "physical_package_id"
          = .ok text ∧
        Atoi text = .ok v ∧ s.Packages[1]? = some v :=
  ⟨_, rfl, rfl, rfl, (NewCPUs_packages_aligned fsOverlap "/sys" _ rfl).1,
    (NewCPUs_packages_aligned fsOverlap "/sys" _ rfl).2 1 1 rfl⟩

/-- C8: a CPU listed under several online nodes raises no conflict.  Every
error `NewCPUs` returns is the failure of one of its reads or parses; and
after a successful build `GetNodeIDForCPU c` is `(n, true)` for the last node
`n`, in the order of `NUMANodes`, whose cpulist contains `c`. -/
theorem GetNodeIDForCPU_last_listing (fs : Sysfs) (sysfsPath : String) :
    (∀ err, (NewCPUs fs sysfsPath).2 = some err → some err ∈ programSteps fs sysfsPath) ∧
    (∀ s, NewCPUs fs sysfsPath = (some s, none) →
      ∀ (c n : Int) (pre post : List Int), s.NUMANodes = pre ++ n :: post →
        listedUnder fs (Dir.New sysfsPath) c n →
        (∀ m ∈ post, ¬ listedUnder fs (Dir.New sysfsPath) c m) →
        s.GetNodeIDForCPU c = (n, true)) := by
  constructor
  · intro err herr
    rw [NewCPUs_error_eq] at herr
    exact firstFailure_mem _ _ herr
  · intro s h c n pre post hsplit hn hpost
    obtain ⟨present, online, nodes, cst, nst, _, _, _, _, hloop, rfl⟩ :=
      (NewCPUs_ok_iff fs sysfsPath s).1 h
    simp only at hsplit
    subst hsplit
    have := nodeLoop_last pre post n hloop c hn hpost
    simp [CPUs.GetNodeIDForCPU, this]

/-- Witness for C8 on `fsOverlap`: CPU 0 is listed under nodes 0 and 1, the
build succeeds and CPU 0 maps to node 1. -/
theorem GetNodeIDForCPU_last_listing_witness :
    listedUnder fsOverlap (Dir.New "/sys") 0 0 ∧ listedUnder fsOverlap (Dir.New "/sys") 0 1 ∧
    ∃ s, NewCPUs fsOverlap "/sys" = (some s, none) ∧ s.NUMANodes = [0, 1] ∧
      s.GetNodeIDForCPU 0 = (1, true) :=
  ⟨⟨[0], rfl, by decide⟩, ⟨[0, 1], rfl, by decide⟩, _, rfl, rfl,
    (GetNodeIDForCPU_last_listing fsOverlap "/sys").2 _ rfl 0 1 [0] [] rfl
      ⟨[0, 1], rfl, by decide⟩ (fun _ hm => absurd hm (List.not_mem_nil _))⟩

/-- C9: after a successful build, for every online CPU `c`, `CoreCPUs[c]` is
the list read from `c`'s `thread_siblings_list` and `PackageCPUs[c]` is the
list read from `c`'s `core_siblings_list`. -/
theorem NewCPUs_sibling_lists (fs : Sysfs) (sysfsPath : String) (s : CPUs)
    (h : NewCPUs fs sysfsPath = (some s, none)) (c : Int) (hc : c ∈ s.Online) :
    ∃ th co,
      fs.ReadList (((Dir.New sysfsPath).ForCPU c).Join "topology") "thread_siblings_list"
        = .ok th ∧
      fs.ReadList (((Dir.New sysfsPath).ForCPU c).Join "topology") "core_siblings_list"
        = .ok co ∧
      s.CoreCPUs c = some th ∧ s.PackageCPUs c = some co := by
  obtain ⟨present, online, nodes, cst, nst, _, _, _, hloop, _, rfl⟩ :=
    (NewCPUs_ok_iff fs sysfsPath s).1 h
  exact (cpuLoop_maps hloop c).2 hc

/-- Witness for C9 on `fsOverlap`: CPU 0 has thread siblings `[0]` and core
siblings `[0, 1]`, recorded in that order under key 0. -/
theorem NewCPUs_sibling_lists_witness :
    ∃ s, NewCPUs fsOverlap "/sys" = (some s, none) ∧
      s.CoreCPUs 0 = some [0] ∧ s.PackageCPUs 0 = some [0, 1] ∧
      ∃ th co,
        fsOverlap.ReadList (((Dir.New "/sys").ForCPU 0).Join "topology") "thread_siblings_list"
          = .ok th ∧
        fsOverlap.ReadList (((Dir.New "/sys").ForCPU 0).Join "topology") "core_siblings_list"
          = .ok co ∧
        s.CoreCPUs 0 = some th ∧ s.PackageCPUs 0 = some co :=
  ⟨_, rfl, rfl, rfl, NewCPUs_sibling_lists fsOverlap "/sys" _ rfl 0 (by decide)⟩

/-- C10: `NewCPUs` succeeds exactly when every read and parse it depends on
succeeds; its result is the same for any filesystem state that agrees with the
given one on the consulted attributes, whatever the attributes of CPUs and
nodes that are not online; and on success `Present`, `Online` and `NUMANodes`
are the lists as read. -/
theorem NewCPUs_consulted_only (fs : Sysfs) (sysfsPath : String) :
    ((∃ s, NewCPUs fs sysfsPath = (some s, none)) ↔ allReadsSucceed fs sysfsPath) ∧
    (∀ fs2, agreeOnConsulted fs fs2 sysfsPath → NewCPUs fs2 sysfsPath = NewCPUs fs sysfsPath) ∧
    (∀ s, NewCPUs fs sysfsPath = (some s, none) →
      fs.ReadList ((Dir.New sysfsPath).Join PathDevsSysCPU) "present" = .ok s.Present ∧
      fs.ReadList ((Dir.New sysfsPath).Join PathDevsSysCPU) "online" = .ok s.Online ∧
      fs.ReadList ((Dir.New sysfsPath).Join PathDevsSysNode) "online" = .ok s.NUMANodes) := by
  refine ⟨⟨?_, ?_⟩, ?_, ?_⟩
  · rintro ⟨s, h⟩
    obtain ⟨present, online, nodes, cst, nst, h1, h2, h3, hc, hn, _⟩ :=
      (NewCPUs_ok_iff fs sysfsPath s).1 h
    exact ⟨present, online, nodes, h1, h2, h3,
      (cpuLoop_ok_iff fs _ online _).1 ⟨cst, hc⟩, (nodeLoop_ok_iff fs _ nodes _).1 ⟨nst, hn⟩⟩
  · rintro ⟨present, online, nodes, h1, h2, h3, hc, hn⟩
    obtain ⟨cst, hc1⟩ := (cpuLoop_ok_iff fs (Dir.New sysfsPath) online CPULoopState.init).2 hc
    obtain ⟨nst, hn1⟩ := (nodeLoop_ok_iff fs (Dir.New sysfsPath) nodes NodeLoopState.init).2 hn
    exact ⟨_, (NewCPUs_ok_iff fs sysfsPath _).2
      ⟨present, online, nodes, cst, nst, h1, h2, h3, hc1, hn1, rfl⟩⟩
  · rintro fs2 ⟨e1, e2, e3, ec, en⟩
    simp only [NewCPUs, ← e1, ← e2, ← e3]
    cases h1 : fs.ReadList ((Dir.New sysfsPath).Join PathDevsSysCPU) "present" with
    | error e => rfl
    | ok present =>
      cases h2 : fs.ReadList ((Dir.New sysfsPath).Join PathDevsSysCPU) "online" with
      | error e => rfl
      | ok online =>
        cases h3 : fs.ReadList ((Dir.New sysfsPath).Join PathDevsSysNode) "online" with
        | error e => rfl
        | ok nodes =>
          have hc := cpuLoop_congr fs fs2 (Dir.New sysfsPath) online CPULoopState.init
            (ec online h2)
          have hn := nodeLoop_congr fs fs2 (Dir.New sysfsPath) nodes NodeLoopState.init
            (en nodes h3)
          simp only [← hc, ← hn]
  · intro s h
    obtain ⟨present, online, nodes, cst, nst, h1, h2, h3, _, _, rfl⟩ :=
      (NewCPUs_ok_iff fs sysfsPath s).1 h
    exact ⟨h1, h2, h3⟩

/-- The trees `fsOverlap` and `fsOverlapExtra` agree on what `NewCPUs` consults. -/
theorem fsOverlapExtra_agrees : agreeOnConsulted fsOverlap fsOverlapExtra "/sys" := by
  refine ⟨rfl, rfl, rfl, ?_, ?_⟩
  · intro online h c hc
    have h0 : fsOverlap.ReadList ((Dir.New "/sys").Join PathDevsSysCPU) "online"
        = .ok [0, 1] := rfl
    rw [h0] at h
    cases h
    simp only [List.mem_cons, List.mem_singleton, List.not_mem_nil, or_false] at hc
    rcases hc with rfl | rfl
    · exact ⟨rfl, rfl, rfl⟩
    · exact ⟨rfl, rfl, rfl⟩
  · intro nodes h n hn
    have h0 : fsOverlap.ReadList ((Dir.New "/sys").Join PathDevsSysNode) "online"
        = .ok [0, 1] := rfl
    rw [h0] at h
    cases h
    simp only [List.mem_cons, List.mem_singleton, List.not_mem_nil, or_false] at hn
    rcases hn with rfl | rfl
    · rfl
    · rfl

/-- Witness for C10: `fsOverlapExtra` differs from `fsOverlap` only on CPU 7 and
node 5, which are not online, and both builds return the same result, with
the lists as read. -/
theorem NewCPUs_consulted_only_witness :
    fsOverlapExtra.ReadList (((Dir.New "/sys").ForCPU 7).Join "topology") "thread_siblings_list"
      ≠ fsOverlap.ReadList (((Dir.New "/sys").ForCPU 7).Join "topology") "thread_siblings_list" ∧
    NewCPUs fsOverlapExtra "/sys" = NewCPUs fsOverlap "/sys" ∧
    allReadsSucceed fsOverlap "/sys" ∧
    ∃ s, NewCPUs fsOverlap "/sys" = (some s, none) ∧
      s.Present = [0, 1] ∧ s.Online = [0, 1] ∧ s.NUMANodes = [0, 1] :=
  ⟨(fun h => by cases h),
   (NewCPUs_consulted_only fsOverlap "/sys").2.1 fsOverlapExtra fsOverlapExtra_agrees,
   (NewCPUs_consulted_only fsOverlap "/sys").1.1 ⟨_, rfl⟩,
   _, rfl, rfl, rfl, rfl⟩

/-! ## Lemmas on the distance matrix -/

theorem readRows_spec {rowText : Int → Except Error String} {count : Nat} {l : List Int}
    {m m1 : GoMap Int (List Int)} (h : readRows rowText count l m = .ok m1) (k : Int) :
    (k ∉ l → m1 k = m k) ∧
    (k ∈ l → ∃ text row, rowText k = .ok text ∧ parseRow text = .ok row ∧
      row.length = count ∧ m1 k = some row) := by
  induction l generalizing m with
  | nil =>
    simp only [readRows, Except.ok.injEq] at h
    subst h
    simp
  | cons n rest ih =>
    cases h1 : rowText n with
    | error e => simp [readRows, h1] at h
    | ok text =>
      cases h2 : parseRow text with
      | error e => simp [readRows, h1, h2] at h
      | ok row =>
        by_cases h3 : row.length = count
        · simp only [readRows, h1, h2, h3, if_true] at h
          have IH := ih h
          constructor
          · intro hk
            simp only [List.mem_cons, not_or] at hk
            have := IH.1 hk.2
            simpa [GoMap.set, hk.1] using this
          · intro hk
            by_cases hr : k ∈ rest
            · exact IH.2 hr
            · have hkn : k = n := by
                rcases List.mem_cons.1 hk with h0 | h0
                · exact h0
                · exact absurd h0 hr
              subst hkn
              have := IH.1 hr
              exact ⟨text, row, h1, h2, h3, by simpa [GoMap.set] using this⟩
        · simp [readRows, h1, h2, h3] at h

theorem indexOf_eq_count_lt (l : List Int) (x : Int) (hs : l.Sorted (fun a b => a < b))
    (hx : x ∈ l) : l.indexOf x = (l.filter (fun m => m < x)).length := by
  induction l with
  | nil => cases hx
  | cons a rest ih =>
    have hall : ∀ b ∈ rest, a < b := (List.sorted_cons.1 hs).1
    have hrest : rest.Sorted (fun a b => a < b) := (List.sorted_cons.1 hs).2
    by_cases hax : a = x
    · subst hax
      have hnone : rest.filter (fun m => decide (m < a)) = [] := by
        rw [List.filter_eq_nil_iff]
        intro b hb
        have := hall b hb
        simp only [decide_eq_true_eq, not_lt]
        exact le_of_lt this
      simp [hnone]
    · have hxr : x ∈ rest := by
        rcases List.mem_cons.1 hx with h0 | h0
        · exact absurd h0.symm hax
        · exact h0
      have hlt : a < x := hall x hxr
      rw [List.indexOf_cons_ne _ hax, ih hrest hxr]
      simp [List.filter_cons, hlt]

/-- What a successful construction stores: the online nodes in strictly
ascending order, and for each of them its decoded row, of full length. -/
theorem buildDistances_spec {nodeIDs : List Int} {rowText : Int → Except Error String}
    {d : Distances} (h : buildDistances nodeIDs rowText = .ok d) :
    d.onlineNodes.Sorted (fun a b => a < b) ∧
    (∀ k, k ∈ d.onlineNodes ↔ k ∈ nodeIDs) ∧
    (∀ k ∈ d.onlineNodes, ∃ text row, rowText k = .ok text ∧ parseRow text = .ok row ∧
      row.length = d.onlineNodes.length ∧ d.byNode k = some row) := by
  cases hr : readRows rowText (sortNodes nodeIDs).length (sortNodes nodeIDs) GoMap.empty with
  | error e => simp [buildDistances, hr] at h
  | ok rows =>
    simp only [buildDistances, hr, Except.ok.injEq] at h
    subst h
    refine ⟨?_, ?_, ?_⟩
    · have h1 : (sortNodes nodeIDs).Sorted (fun a b => a ≤ b) :=
        List.sorted_insertionSort _ _
      have h2 : (sortNodes nodeIDs).Nodup :=
        (List.perm_insertionSort _ _).nodup_iff.2 (List.nodup_dedup _)
      exact h1.lt_of_le h2
    · intro k
      simp [sortNodes, List.mem_insertionSort]
    · intro k hk
      exact (readRows_spec hr k).2 hk

/-- A query between two online nodes of a constructed matrix returns the entry
of the row of `nFrom` at the position of `nTo` in ascending node-ID order. -/
theorem buildDistances_query {nodeIDs : List Int} {rowText : Int → Except Error String}
    {d : Distances} (h : buildDistances nodeIDs rowText = .ok d) (nFrom nTo : Int)
    (hf : nFrom ∈ d.onlineNodes) (ht : nTo ∈ d.onlineNodes) :
    ∃ text row v, rowText nFrom = .ok text ∧ parseRow text = .ok row ∧
      row[positionOf d nTo]? = some v ∧ d.BetweenNodes nFrom nTo = .value v := by
  obtain ⟨hs, _, hrows⟩ := buildDistances_spec h
  obtain ⟨text, row, h1, h2, hlen, hmap⟩ := hrows nFrom hf
  have hidx : d.onlineNodes.indexOf nTo = positionOf d nTo :=
    indexOf_eq_count_lt d.onlineNodes nTo hs ht
  have hlt : positionOf d nTo < row.length := by
    rw [hlen, ← hidx]
    exact List.indexOf_lt_length.2 ht
  refine ⟨text, row, row[positionOf d nTo], h1, h2, List.getElem?_eq_getElem hlt, ?_⟩
  simp [Distances.BetweenNodes, hf, ht, hmap, hidx, List.getElem?_eq_getElem hlt]

theorem parseKeys_mem {data : List (String × String)} {entries : List (Int × String)}
    (h : parseKeys data = .ok entries) (node : Int) (text : String) :
    (node, text) ∈ entries ↔ ∃ key, (key, text) ∈ data ∧ Atoi key = .ok node := by
  induction data generalizing entries with
  | nil =>
    simp only [parseKeys, Except.ok.injEq] at h
    subst h
    simp
  | cons kv rest ih =>
    obtain ⟨key0, text0⟩ := kv
    cases h1 : Atoi key0 with
    | error e => simp [parseKeys, h1] at h
    | ok id0 =>
      cases h2 : parseKeys rest with
      | error e => simp [parseKeys, h1, h2] at h
      | ok es =>
        simp only [parseKeys, h1, h2, Except.ok.injEq] at h
        subst h
        have IH := ih h2
        constructor
        · intro hmem
          rcases List.mem_cons.1 hmem with h0 | h0
          · simp only [Prod.mk.injEq] at h0
            obtain ⟨rfl, rfl⟩ := h0
            exact ⟨key0, List.mem_cons_self _ _, h1⟩
          · obtain ⟨key, hk, ha⟩ := IH.1 h0
            exact ⟨key, List.mem_cons_of_mem _ hk, ha⟩
        · rintro ⟨key, hk, ha⟩
          rcases List.mem_cons.1 hk with h0 | h0
          · simp only [Prod.mk.injEq] at h0
            obtain ⟨rfl, rfl⟩ := h0
            rw [h1] at ha
            cases ha
            exact List.mem_cons_self _ _
          · exact List.mem_cons_of_mem _ (IH.2 ⟨key, h0, ha⟩)

theorem rowTextOf_mem {entries : List (Int × String)} {node : Int} {text : String}
    (h : rowTextOf entries node = .ok text) : (node, text) ∈ entries := by
  induction entries with
  | nil => simp [rowTextOf] at h
  | cons e rest ih =>
    obtain ⟨id, t⟩ := e
    by_cases hid : id = node
    · simp only [rowTextOf, hid, if_true, Except.ok.injEq] at h
      subst h
      subst hid
      exact List.mem_cons_self _ _
    · simp only [rowTextOf, hid, if_false] at h
      exact List.mem_cons_of_mem _ (ih h)

/-- The online nodes of a matrix built from data are the nodes written by the
keys of the data. -/
theorem NewDistancesFromData_nodes {data : List (String × String)} {d : Distances}
    (h : NewDistancesFromData data = .ok d) (node : Int) :
    node ∈ d.onlineNodes ↔ keyedBy data node := by
  unfold NewDistancesFromData at h
  cases hk : parseKeys data with
  | error e => simp [hk] at h
  | ok entries =>
    simp only [hk] at h
    rw [(buildDistances_spec h).2.1 node]
    constructor
    · intro hmem
      obtain ⟨⟨id, text⟩, hin, hid⟩ := List.mem_map.1 hmem
      simp only at hid
      subst hid
      obtain ⟨key, h1, h2⟩ := (parseKeys_mem hk id text).1 hin
      exact ⟨key, text, h1, h2⟩
    · rintro ⟨key, text, h1, h2⟩
      exact List.mem_map.2 ⟨(node, text), (parseKeys_mem hk node text).2 ⟨key, h1, h2⟩, rfl⟩

/-- The online nodes of a matrix built from a filesystem state are the nodes of
its online node list. -/
theorem NewDistancesFromSysfs_nodes {fs : Sysfs} {p : String} {d : Distances}
    (h : NewDistancesFromSysfs fs p = .ok d) (node : Int) :
    node ∈ d.onlineNodes ↔ onlineNode fs p node := by
  unfold NewDistancesFromSysfs at h
  cases hr : fs.ReadList ((Dir.New p).Join PathDevsSysNode) "online" with
  | error e => simp [hr] at h
  | ok nodes =>
    simp only [hr] at h
    rw [(buildDistances_spec h).2.1 node]
    simp [onlineNode, hr]

/-! ## Properties of the distance matrix -/

/-- C6: for a distance matrix built by `NewDistancesFromData` or by
`NewDistancesFromSysfs`, `BetweenNodes` returns an error, and does not panic,
whenever `nFrom` or `nTo` is not an online node of the matrix, whatever its
sign or size. -/
theorem BetweenNodes_unknown_fails (d : Distances) (nFrom nTo : Int) :
    (∀ data, NewDistancesFromData data = .ok d →
      (¬ keyedBy data nFrom ∨ ¬ keyedBy data nTo) →
      ∃ err, d.BetweenNodes nFrom nTo = .failure err) ∧
    (∀ fs sysfsPath, NewDistancesFromSysfs fs sysfsPath = .ok d →
      (¬ onlineNode fs sysfsPath nFrom ∨ ¬ onlineNode fs sysfsPath nTo) →
      ∃ err, d.BetweenNodes nFrom nTo = .failure err) := by
  have key : (nFrom ∉ d.onlineNodes ∨ nTo ∉ d.onlineNodes) →
      ∃ err, d.BetweenNodes nFrom nTo = .failure err := by
    intro h
    by_cases hf : nFrom ∈ d.onlineNodes
    · have ht : nTo ∉ d.onlineNodes := h.resolve_left (not_not.2 hf)
      exact ⟨.unknownNode nTo, by simp [Distances.BetweenNodes, hf, ht]⟩
    · exact ⟨.unknownNode nFrom, by simp [Distances.BetweenNodes, hf]⟩
  constructor
  · intro data hb h
    apply key
    rcases h with h | h
    · exact Or.inl (fun hm => h ((NewDistancesFromData_nodes hb nFrom).1 hm))
    · exact Or.inr (fun hm => h ((NewDistancesFromData_nodes hb nTo).1 hm))
  · intro fs p hb h
    apply key
    rcases h with h | h
    · exact Or.inl (fun hm => h ((NewDistancesFromSysfs_nodes hb nFrom).1 hm))
    · exact Or.inr (fun hm => h ((NewDistancesFromSysfs_nodes hb nTo).1 hm))

/-- No key of `dataSingle` writes a node other than 0. -/
theorem keyedBy_dataSingle (node : Int) (h : keyedBy dataSingle node) : node = 0 := by
  obtain ⟨key, text, hmem, hk⟩ := h
  simp only [dataSingle, List.mem_singleton, Prod.mk.injEq] at hmem
  obtain ⟨rfl, rfl⟩ := hmem
  have h0 : Atoi "0" = .ok 0 := rfl
  rw [h0] at hk
  cases hk
  rfl

/-- Witness for C6: with the single row `0: 10`, the query `(0, 0)` gives 10 and
the queries `(0, 1)`, `(1, 0)`, `(0, -1)`, `(-1, 0)`, `(255, 255)` and
`(-1, -1)` all fail. -/
theorem BetweenNodes_unknown_fails_witness :
    ∃ d, NewDistancesFromData dataSingle = .ok d ∧
      d.BetweenNodes 0 0 = .value 10 ∧
      (∃ err, d.BetweenNodes 0 1 = .failure err) ∧
      (∃ err, d.BetweenNodes 1 0 = .failure err) ∧
      (∃ err, d.BetweenNodes 0 (-1) = .failure err) ∧
      (∃ err, d.BetweenNodes (-1) 0 = .failure err) ∧
      (∃ err, d.BetweenNodes 255 255 = .failure err) ∧
      (∃ err, d.BetweenNodes (-1) (-1) = .failure err) :=
  ⟨_, rfl, rfl,
    (BetweenNodes_unknown_fails _ 0 1).1 dataSingle rfl
      (Or.inr (fun h => absurd (keyedBy_dataSingle 1 h) (by decide))),
    (BetweenNodes_unknown_fails _ 1 0).1 dataSingle rfl
      (Or.inl (fun h => absurd (keyedBy_dataSingle 1 h) (by decide))),
    (BetweenNodes_unknown_fails _ 0 (-1)).1 dataSingle rfl
      (Or.inr (fun h => absurd (keyedBy_dataSingle (-1) h) (by decide))),
    (BetweenNodes_unknown_fails _ (-1) 0).1 dataSingle rfl
      (Or.inl (fun h => absurd (keyedBy_dataSingle (-1) h) (by decide))),
    (BetweenNodes_unknown_fails _ 255 255).1 dataSingle rfl
      (Or.inl (fun h => absurd (keyedBy_dataSingle 255 h) (by decide))),
    (BetweenNodes_unknown_fails _ (-1) (-1)).1 dataSingle rfl
      (Or.inl (fun h => absurd (keyedBy_dataSingle (-1) h) (by decide)))⟩

/-- C7: for a distance matrix built from one whitespace-separated integer row
per online node, the online nodes are stored in strictly ascending order, and
for every pair of online nodes `BetweenNodes nFrom nTo` succeeds with the entry
of the row given for `nFrom` at the position of `nTo` in ascending node-ID
order; with `nFrom = nTo` this is the self entry of the row, and nothing
relates the entries of `(nFrom, nTo)` and `(nTo, nFrom)`. -/
theorem BetweenNodes_online_entry (d : Distances) (nFrom nTo : Int) :
    (∀ data, NewDistancesFromData data = .ok d →
      (d.onlineNodes.Sorted (fun a b => a < b) ∧ ∀ n, n ∈ d.onlineNodes ↔ keyedBy data n) ∧
      (keyedBy data nFrom → keyedBy data nTo →
        ∃ key text row v, (key, text) ∈ data ∧ Atoi key = .ok nFrom ∧
          parseRow text = .ok row ∧ row[positionOf d nTo]? = some v ∧
          d.BetweenNodes nFrom nTo = .value v)) ∧
    (∀ fs sysfsPath, NewDistancesFromSysfs fs sysfsPath = .ok d →
      (d.onlineNodes.Sorted (fun a b => a < b) ∧
        ∀ n, n ∈ d.onlineNodes ↔ onlineNode fs sysfsPath n) ∧
      (onlineNode fs sysfsPath nFrom → onlineNode fs sysfsPath nTo →
        ∃ text row v,
          fs.ReadFile ((Dir.New sysfsPath).ForNode nFrom) "distance" = .ok text ∧
          parseRow text = .ok row ∧ row[positionOf d nTo]? = some v ∧
          d.BetweenNodes nFrom nTo = .value v)) := by
  constructor
  · intro data hb
    have hnodes := NewDistancesFromData_nodes hb
    unfold NewDistancesFromData at hb
    cases hk : parseKeys data with
    | error e => simp [hk] at hb
    | ok entries =>
      simp only [hk] at hb
      refine ⟨⟨(buildDistances_spec hb).1, hnodes⟩, ?_⟩
      intro hf ht
      obtain ⟨text, row, v, h1, h2, h3, h4⟩ :=
        buildDistances_query hb nFrom nTo ((hnodes nFrom).2 hf) ((hnodes nTo).2 ht)
      obtain ⟨key, h5, h6⟩ := (parseKeys_mem hk nFrom text).1 (rowTextOf_mem h1)
      exact ⟨key, text, row, v, h5, h6, h2, h3, h4⟩
  · intro fs p hb
    have hnodes := NewDistancesFromSysfs_nodes hb
    unfold NewDistancesFromSysfs at hb
    cases hr : fs.ReadList ((Dir.New p).Join PathDevsSysNode) "online" with
    | error e => simp [hr] at hb
    | ok nodes =>
      simp only [hr] at hb
      refine ⟨⟨(buildDistances_spec hb).1, hnodes⟩, ?_⟩
      intro hf ht
      exact buildDistances_query hb nFrom nTo ((hnodes nFrom).2 hf) ((hnodes nTo).2 ht)

/-- Witness for C7: the rows `0: 10 21` and `1: 21 10` give 10, 10, 21, 21 for
`(0,0)`, `(1,1)`, `(0,1)`, `(1,0)`, from data and from the fake tree; with the
rows `0: 10 21` and `2: 30 10`, node 2 is at position 1 and the two
directions report 21 and 30. -/
theorem BetweenNodes_online_entry_witness :
    (∃ d, NewDistancesFromData dataTwoNodes = .ok d ∧
      d.BetweenNodes 0 0 = .value 10 ∧ d.BetweenNodes 1 1 = .value 10 ∧
      d.BetweenNodes 0 1 = .value 21 ∧ d.BetweenNodes 1 0 = .value 21 ∧
      ∃ key text row v, (key, text) ∈ dataTwoNodes ∧ Atoi key = .ok 0 ∧
        parseRow text = .ok row ∧ row[positionOf d 1]? = some v ∧
        d.BetweenNodes 0 1 = .value v) ∧
    (∃ d, NewDistancesFromSysfs fsTwoNodes "/tmp/fakesysfs/sys" = .ok d ∧
      d.BetweenNodes 0 0 = .value 10 ∧ d.BetweenNodes 1 1 = .value 10 ∧
      d.BetweenNodes 0 1 = .value 21 ∧ d.BetweenNodes 1 0 = .value 21 ∧
      ∃ text row v,
        fsTwoNodes.ReadFile ((Dir.New "/tmp/fakesysfs/sys").ForNode 1) "distance" = .ok text ∧
        parseRow text = .ok row ∧ row[positionOf d 0]? = some v ∧
        d.BetweenNodes 1 0 = .value v) ∧
    (∃ d, NewDistancesFromData dataSparse = .ok d ∧ positionOf d 2 = 1 ∧
      d.BetweenNodes 0 2 = .value 21 ∧ d.BetweenNodes 2 0 = .value 30) :=
  ⟨⟨_, rfl, rfl, rfl, rfl, rfl,
      ((BetweenNodes_online_entry _ 0 1).1 dataTwoNodes rfl).2
        ⟨"0", "10 21", by decide, rfl⟩ ⟨"1", "21 10", by decide, rfl⟩⟩,
    ⟨_, rfl, rfl, rfl, rfl, rfl,
      ((BetweenNodes_online_entry _ 1 0).2 fsTwoNodes "/tmp/fakesysfs/sys" rfl).2
        ⟨[0, 1], rfl, by decide⟩ ⟨[0, 1], rfl, by decide⟩⟩,
    ⟨_, rfl, rfl, rfl, rfl⟩⟩

end TopologyInfo

